import Mathlib

/-!
# Verification of the qri sync client, acquisition coordinator and config API

A shallow embedding of the Go sources of the qri repository:

* `remote/client.go` — the sync client (`PullLogs`, `PushLogs`, `RemoveLogs`,
  `PushDataset`, `PullDataset`, `RemoveDataset`, `ResolveHeadRef`, signature
  parameter construction `sigParams` / `calcProfileID` / `requestSigningString`
  / `signString`, and address classification `addressType`);
* `actions/dataset.go` — the acquisition coordinator `AddDataset` that races
  a configured remote against the open network;
* `lib` (`DatasetRequests.Add`, `DatasetRequests.Remove`) — the RPC-facing
  methods that call into the sync client;
* `core` (`GetConfig`) — configuration serialization with private-key
  scrubbing.

External library calls (libp2p crypto, multihash, base58/base64 encoders,
the network itself) are abstracted as explicit function parameters; the
repository code that composes them is translated faithfully.  Components of
this repository that are referenced but whose sources are not available
(the `logsync` transport dispatch, `base.ReplaceRefIfMoreRecent`, the repo
refstore) are modelled from the spec and marked as such in their doc
comments.
-/

/-! ## String helpers

Go's `strings.HasPrefix` modelled on character lists. -/

/-- Boolean character-list prefix test (Go `strings.HasPrefix` on `.toList`). -/
def listIsPref : List Char → List Char → Bool
  | [], _ => true
  | _ :: _, [] => false
  | a :: as, b :: bs => a == b && listIsPref as bs

/-- Go `strings.HasPrefix s pre`. -/
def hasPref (s pre : String) : Bool :=
  listIsPref pre.toList s.toList

/-! ## Address classification (`remote/client.go`, `addressType`)

`peer.IDB58Decode` is an external libp2p routine; it is abstracted as a
boolean predicate `isPeer` on strings.  A genuine base58 peer identifier
never contains a `/` character (the base58btc alphabet has no slash), which
is captured by `PeerAddrPred` and assumed where needed. -/

/-- Go `addressType(remoteAddr)`: a valid base58 peer ID means p2p, an
address with prefix `http` means http, anything else is unrecognized
(empty string). -/
def addressType (isPeer : String → Bool) (remoteAddr : String) : String :=
  if isPeer remoteAddr then "p2p"
  else if hasPref remoteAddr "http" then "http"
  else ""

/-- A peer-identifier predicate is sound when every string it accepts is
slash-free, as is true of base58btc peer identifiers. -/
def PeerAddrPred (isPeer : String → Bool) : Prop :=
  ∀ s : String, isPeer s = true → ('/' : Char) ∉ s.toList

/-! ## Logsync transport dispatch -/

/-- A transport selected for a sync session. -/
inductive Transport
  | p2p
  | http
  deriving DecidableEq, Repr

/-- Error message of `remote.ErrNoRemoteClient` (`remote/client.go`). -/
def errNoRemoteClient : String := "remote: no client to make remote requests"

/-- Modelled from the spec: the `logbook/logsync` package (not among the
available sources) resolves a remote address to a transport — "a valid
peer-network identifier selects that transport; an address with an
HTTP-style prefix selects HTTP; anything else is an unrecognized-address
error". -/
def logsyncDispatch (isPeer : String → Bool) (remoteAddr : String) :
    Except String (Transport × String) :=
  if isPeer remoteAddr then .ok (.p2p, remoteAddr)
  else if hasPref remoteAddr "http" then .ok (.http, remoteAddr)
  else .error "unrecognized address string"

/-- `Client.PullLogs` (`remote/client.go` lines 83–98): nil-client guard,
then append `/remote/logsync` when the address classifies as http, then
hand the address to logsync. -/
def pullLogs (isPeer : String → Bool) (clientPresent : Bool)
    (remoteAddr : String) : Except String (Transport × String) :=
  if !clientPresent then .error errNoRemoteClient
  else
    let remoteAddr :=
      if addressType isPeer remoteAddr = "http" then
        remoteAddr ++ "/remote/logsync"
      else remoteAddr
    logsyncDispatch isPeer remoteAddr

/-- `Client.PushLogs` (`remote/client.go` lines 101–116): same address
handling as `PullLogs`. -/
def pushLogs (isPeer : String → Bool) (clientPresent : Bool)
    (remoteAddr : String) : Except String (Transport × String) :=
  if !clientPresent then .error errNoRemoteClient
  else
    let remoteAddr :=
      if addressType isPeer remoteAddr = "http" then
        remoteAddr ++ "/remote/logsync"
      else remoteAddr
    logsyncDispatch isPeer remoteAddr

/-- `Client.RemoveLogs` (`remote/client.go` lines 119–130): same address
handling as `PullLogs`. -/
def removeLogs (isPeer : String → Bool) (clientPresent : Bool)
    (remoteAddr : String) : Except String (Transport × String) :=
  if !clientPresent then .error errNoRemoteClient
  else
    let remoteAddr :=
      if addressType isPeer remoteAddr = "http" then
        remoteAddr ++ "/remote/logsync"
      else remoteAddr
    logsyncDispatch isPeer remoteAddr

/-! ## Signature parameters (`remote/client.go`, `sigParams` and friends)

Cryptographic primitives are external libraries (libp2p crypto, multihash,
`encoding/base64`, base58); they are collected in `CryptoPrims` and the
repository code that composes them is translated directly.  Bytes are
modelled as `List Nat`. -/

/-- External cryptographic primitives used by the sync client.
`pubKeyBytes` is `privKey.GetPublic().Bytes()` (fallible), `sign` is
`privKey.Sign` (fallible), `sha256digest` the SHA2-256 digest,
`b58` base58btc encoding, `b64` standard base64 encoding. -/
structure CryptoPrims where
  sha256digest : List Nat → List Nat
  b58 : List Nat → String
  b64 : List Nat → String
  pubKeyBytes : List Nat → Option (List Nat)
  sign : List Nat → String → Option (List Nat)

/-- A dataset reference as used by the sync client (`repo.DatasetRef`,
restricted to the fields the client reads). -/
structure DatasetRef where
  peername : String
  name : String
  profileID : String
  path : String
  deriving DecidableEq, Repr

/-- `calcProfileID` (`remote/client.go` lines 346–358): base58 encoding of
`multihash.Sum(pubkeybytes, SHA2_256, 32)`.  The multihash bytes are the
varint code `0x12`, the varint digest length `0x20`, then the (32-byte)
SHA2-256 digest. -/
def calcProfileID (c : CryptoPrims) (privKey : List Nat) : Option String :=
  (c.pubKeyBytes privKey).map fun pubkeybytes =>
    c.b58 (18 :: 32 :: (c.sha256digest pubkeybytes).take 32)

/-- `requestSigningString` (`remote/client.go` lines 333–335):
`"<timestamp>.<peerID>.<cidStr>"`. -/
def requestSigningString (timestamp peerID cidStr : String) : String :=
  timestamp ++ "." ++ peerID ++ "." ++ cidStr

/-- `signString` (`remote/client.go` lines 337–344): sign then base64. -/
def signString (c : CryptoPrims) (privKey : List Nat) (str : String) :
    Option String :=
  (c.sign privKey str).map c.b64

/-- `sigParams` (`remote/client.go` lines 306–331).  `now` is the unix
timestamp `time.Now().In(time.UTC).Unix()`, supplied by the caller here
since real time is outside the embedding; the code formats it with
`fmt.Sprintf` as a decimal string.  The Go `map[string]string` literal is
modelled as an association list with exactly the same seven keys. -/
def sigParams (c : CryptoPrims) (privKey : List Nat) (ref : DatasetRef)
    (now : Int) : Option (List (String × String)) := do
  let pid ← calcProfileID c privKey
  let rss := requestSigningString (toString now) pid ref.path
  let b64Sig ← signString c privKey rss
  pure [("peername", ref.peername), ("name", ref.name),
        ("profileID", ref.profileID), ("path", ref.path),
        ("pid", pid), ("timestamp", toString now), ("signature", b64Sig)]

/-! ## Dataset content operations (`remote/client.go`) -/

/-- The request a dataset-content operation hands to the external dsync /
HTTP machinery: method or direction, target address, dataset path, and the
attached parameters. -/
structure OpRequest where
  method : String
  addr : String
  path : String
  params : List (String × String)
  deriving DecidableEq, Repr

/-- `Client.PushDataset` (`remote/client.go` lines 133–169): nil-client
guard; append `/remote/dsync` when the address classifies as http; create
the push for `ref.Path`; compute `sigParams` and attach them as meta.  The
progress-printing goroutine has no effect on the request and is omitted. -/
def pushDataset (c : CryptoPrims) (isPeer : String → Bool)
    (clientPresent : Bool) (privKey : List Nat) (ref : DatasetRef)
    (now : Int) (remoteAddr : String) : Except String OpRequest :=
  if !clientPresent then .error errNoRemoteClient
  else
    let remoteAddr :=
      if addressType isPeer remoteAddr = "http" then
        remoteAddr ++ "/remote/dsync"
      else remoteAddr
    match sigParams c privKey ref now with
    | none => .error "error generating sig params"
    | some params =>
        .ok { method := "push", addr := remoteAddr, path := ref.path,
              params := params }

/-- `Client.PullDataset` (`remote/client.go` lines 172–198): nil-client
guard; when `ref.Path` is empty, first resolve the head ref against the
remote (`resolveRef` abstracts `Client.ResolveHeadRef` together with the
remote's answer); compute `sigParams` for the (possibly resolved) ref and
create the pull against `remoteAddr ++ "/remote/dsync"` (the suffix is
appended unconditionally here). -/
def pullDataset (c : CryptoPrims) (clientPresent : Bool)
    (privKey : List Nat) (ref : DatasetRef) (now : Int)
    (remoteAddr : String)
    (resolveRef : DatasetRef → Except String DatasetRef) :
    Except String OpRequest :=
  if !clientPresent then .error errNoRemoteClient
  else
    match (if ref.path = "" then resolveRef ref else .ok ref) with
    | .error e => .error e
    | .ok ref =>
        match sigParams c privKey ref now with
        | none => .error "error generating sig params"
        | some params =>
            .ok { method := "pull", addr := remoteAddr ++ "/remote/dsync",
                  path := ref.path, params := params }

/-- `Client.RemoveDataset` (`remote/client.go` lines 201–218 together with
`removeDatasetHTTP`, lines 269–304): nil-client guard; compute `sigParams`;
only an http-classified address is served — the request is a DELETE against
the remote's `/remote/refs` path with the signed params as query values —
any other address type errors. -/
def removeDataset (c : CryptoPrims) (isPeer : String → Bool)
    (clientPresent : Bool) (privKey : List Nat) (ref : DatasetRef)
    (now : Int) (remoteAddr : String) : Except String OpRequest :=
  if !clientPresent then .error errNoRemoteClient
  else
    match sigParams c privKey ref now with
    | none => .error "error generating sig params"
    | some params =>
        if addressType isPeer remoteAddr = "http" then
          .ok { method := "DELETE", addr := remoteAddr,
                path := "/remote/refs", params := params }
        else .error "dataset remove requests currently only work over HTTP"

/-- `Client.ResolveHeadRef` (`remote/client.go` lines 222–233 together with
`resolveHeadRefHTTP`, lines 235–267): nil-client guard; only an
http-classified address is served — a GET against the remote's
`/remote/refs` path with `peername` and `name` query values — any other
address type errors. -/
def resolveHeadRef (isPeer : String → Bool) (clientPresent : Bool)
    (ref : DatasetRef) (remoteAddr : String) : Except String OpRequest :=
  if !clientPresent then .error errNoRemoteClient
  else
    if addressType isPeer remoteAddr = "http" then
      .ok { method := "GET", addr := remoteAddr, path := "/remote/refs",
            params := [("peername", ref.peername), ("name", ref.name)] }
    else .error "dataset name resolution currently only works over HTTP"

/-! ## Acquisition coordinator (`actions/dataset.go`, `AddDataset`)

The goroutine race is embedded by its observable protocol: each launched
task sends exactly one `AddTaskResponse` on the shared channel, and the
coordinator's receive loop consumes responses in arrival order.  The
`responses` list below is that arrival order.  The boolean in the result is
whether `cancelFetch()` was invoked inside the loop (the shared
cancellation context fired while other tasks were still in flight); the
final `Nat` is the number of tasks launched. -/

/-- One task's report on the shared `responses` channel
(`addResponse` in `actions/dataset.go`). -/
structure AddTaskResponse where
  ref : DatasetRef
  error : Option String
  deriving DecidableEq, Repr

/-- Number of source tasks `AddDataset` launches (lines 150–189): one when a
remote client and address are configured, one when the node is online. -/
def numTasks (rcPresent : Bool) (remoteAddr : String) (online : Bool) : Nat :=
  (if rcPresent = true ∧ remoteAddr ≠ "" then 1 else 0) +
    (if online = true then 1 else 0)

/-- The receive loop of `AddDataset` (lines 195–205).  The fuel is the
number of launched tasks; the accumulator is the error of the most recently
received response (Go's `err` variable).  Result `none` means the loop
would block forever on the channel (fewer arrivals than receives).  On the
first successful response the loop calls `cancelFetch()` and breaks —
`some (some ref, none, true)`; when fuel runs out it reports the last error
and no in-loop cancellation — `some (none, lastErr, false)`. -/
def recvLoop :
    Nat → List AddTaskResponse → Option String →
      Option (Option DatasetRef × Option String × Bool)
  | 0, _, lastErr => some (none, lastErr, false)
  | _ + 1, [], _ => none
  | n + 1, r :: rest, _ =>
    match r.error with
    | none => some (some r.ref, none, true)
    | some e => recvLoop n rest (some e)

/-- `AddDataset` (`actions/dataset.go` lines 128–209), from task setup to
the end of the receive loop.  Zero launched tasks fail immediately with the
configuration error (line 192) without touching the channel.  Otherwise the
loop runs; all-failure wraps the last received error as
`"add failed: <err>"` (line 208).  The result is
`(outcome, cancelledInLoop, tasksLaunched)`; `none` stands for a blocked
receive.  (The storing of the fetched ref, lines 211–236, is modelled
separately as `addFinalize`.) -/
def addDatasetRace (rcPresent : Bool) (remoteAddr : String) (online : Bool)
    (responses : List AddTaskResponse) :
    Option (Except String DatasetRef × Bool × Nat) :=
  let tasks := numTasks rcPresent remoteAddr online
  if tasks = 0 then
    some (.error "no registry configured and node is not online", false, 0)
  else
    match recvLoop tasks responses none with
    | none => none
    | some (some ref, _, cancelled) => some (.ok ref, cancelled, tasks)
    | some (none, some e, cancelled) =>
        some (.error ("add failed: " ++ e), cancelled, tasks)
    | some (none, none, _) => none

/-! ## Storing the fetched reference (`actions/dataset.go` lines 211–236)

The repo refstore (`node.Repo.GetRef` / `PutRef`) and
`base.ReplaceRefIfMoreRecent` are parts of this repository whose sources
are not available; they are modelled from the spec. -/

/-- Modelled from the spec: the repo refstore keyed by `{peername, name}`;
`GetRef` looks a reference up by peername and name. -/
def getRef (repoRefs : List DatasetRef) (peername name : String) :
    Option DatasetRef :=
  repoRefs.find? fun r => r.peername == peername && r.name == name

/-- Modelled from the spec: `PutRef` replaces the stored reference with the
same `{peername, name}` key (or adds a new one). -/
def putRef (repoRefs : List DatasetRef) (ref : DatasetRef) :
    List DatasetRef :=
  (repoRefs.filter fun r => !(r.peername == ref.peername && r.name == ref.name))
    ++ [ref]

/-- `AddDataset` lines 211–236: after a successful fetch, look up an
existing reference under the same peername and name; when none exists, the
fetched reference is stored as-is; when one exists, both the existing and
the fetched version are loaded from the store and
`base.ReplaceRefIfMoreRecent` decides which one the refstore keeps.

`base.ReplaceRefIfMoreRecent` is modelled from the spec: "the newly
fetched and existing versions are compared and the more recent one (by a
recency rule such as revision depth or timestamp) wins and replaces the
stored reference"; the recency rule itself is the abstract parameter
`moreRecent`.  `store` abstracts `dsfs.LoadDataset` over the content
store; `D` is the loaded dataset type. -/
def addFinalize {D : Type} (moreRecent : D → D → Bool)
    (store : String → Option D) (repoRefs : List DatasetRef)
    (fetched : DatasetRef) : Except String (List DatasetRef) :=
  match getRef repoRefs fetched.peername fetched.name with
  | none => .ok (putRef repoRefs fetched)
  | some prevRef =>
      match store prevRef.path, store fetched.path with
      | some prevDs, some fetchedDs =>
          .ok (if moreRecent fetchedDs prevDs then putRef repoRefs fetched
               else repoRefs)
      | none, _ => .error ("error loading repo dataset: " ++ prevRef.path)
      | some _, none => .error ("error loading added dataset: " ++ fetched.path)

/-! ## `lib.DatasetRequests.Add` and the tail of `Remove` -/

/-- Steps of `DatasetRequests.Add` that touch the network or filesystem,
recorded in execution order. -/
inductive AddStep
  | pullLogsStep
  | logPullError
  | addDatasetStep
  | checkoutStep
  deriving DecidableEq, Repr

/-- `DatasetRequests.Add` (`lib`, non-RPC path): parse the ref; default the
remote address from the configured registry location when empty; run a
best-effort `PullLogs` whose failure is only logged; then run
`AddDataset`; then, when a link directory was given, check the dataset out.
`parseRef`, `pullLogsF`, `addDatasetF` and `checkoutF` abstract the called
subsystems; the returned list records which steps ran, in order. -/
def libAdd (registryLoc : Option String) (refStr linkDir remoteAddr : String)
    (parseRef : String → Except String DatasetRef)
    (pullLogsF : DatasetRef → String → Except String Unit)
    (addDatasetF : DatasetRef → String → Except String DatasetRef)
    (checkoutF : DatasetRef → String → Except String Unit) :
    List AddStep × Except String DatasetRef :=
  match parseRef refStr with
  | .error e => ([], .error e)
  | .ok ref =>
      let remoteAddr :=
        if remoteAddr = "" then registryLoc.getD remoteAddr else remoteAddr
      let pullSteps :=
        match pullLogsF ref remoteAddr with
        | .error _ => [AddStep.pullLogsStep, AddStep.logPullError]
        | .ok _ => [AddStep.pullLogsStep]
      match addDatasetF ref remoteAddr with
      | .error e => (pullSteps ++ [AddStep.addDatasetStep], .error e)
      | .ok ref =>
          if linkDir ≠ "" then
            match checkoutF ref linkDir with
            | .error e =>
                (pullSteps ++ [AddStep.addDatasetStep, AddStep.checkoutStep],
                 .error e)
            | .ok _ =>
                (pullSteps ++ [AddStep.addDatasetStep, AddStep.checkoutStep],
                 .ok ref)
          else (pullSteps ++ [AddStep.addDatasetStep], .ok ref)

/-- Errors a logbook write can produce; `noLogbook` is
`logbook.ErrNoLogbook`. -/
inductive LogbookErr
  | noLogbook
  | other (msg : String)
  deriving DecidableEq, Repr

/-- Tail of `DatasetRequests.Remove` (`lib`, lines 633–638): the result of
`Logbook().WriteVersionDelete` is returned, except that
`logbook.ErrNoLogbook` is swallowed (`err = nil`). -/
def removeVersionDeleteResult (writeErr : Option LogbookErr) :
    Option LogbookErr :=
  match writeErr with
  | some .noLogbook => none
  | e => e

/-! ## `core.GetConfig` -/

/-- The profile section of the configuration, split into its private key
and the remaining fields (opaque here). -/
structure CfgProfile where
  privKey : String
  rest : String
  deriving DecidableEq, Repr

/-- The P2P section of the configuration, split the same way. -/
structure CfgP2P where
  privKey : String
  rest : String
  deriving DecidableEq, Repr

/-- The configuration: optional profile and P2P sections plus all other
fields, opaque here. -/
structure Config where
  profile : Option CfgProfile
  p2p : Option CfgP2P
  rest : String
  deriving DecidableEq, Repr

/-- `GetConfig` lines 80–87: when `WithPrivateKey` is false, blank
`Profile.PrivKey` and `P2P.PrivKey` (when the sections are present). -/
def scrubConfig (withPrivateKey : Bool) (cfg : Config) : Config :=
  if withPrivateKey then cfg
  else
    { cfg with
      profile := cfg.profile.map fun p => { p with privKey := "" }
      p2p := cfg.p2p.map fun p => { p with privKey := "" } }

/-- `GetConfigParams` (`core`). -/
structure GetConfigParams where
  withPrivateKey : Bool
  format : String
  concise : Bool
  field : String

/-- What gets marshalled: the whole (scrubbed) configuration, or the value
of one field of it. -/
inductive Encodee (F : Type)
  | whole (cfg : Config)
  | fieldValue (v : F)

/-- `GetConfig` (`core`, lines 71–113): copy the global config; scrub
private keys unless `WithPrivateKey`; select a field when `Field` is
nonempty (`cfg.Get`, abstracted as `get`; a lookup failure is an error);
marshal as json (indent unless `Concise`) or yaml (both marshallers
abstract, of result type `B`); any other format leaves the caller's `data`
buffer untouched and succeeds. -/
def getConfig {F B : Type} (get : Config → String → Option F)
    (marshalJSON marshalJSONIndent marshalYAML : Encodee F → B)
    (p : GetConfigParams) (globalCfg : Config) (data : B) :
    Except String B :=
  let cfg := scrubConfig p.withPrivateKey globalCfg
  let encodee : Except String (Encodee F) :=
    if p.field = "" then .ok (.whole cfg)
    else
      match get cfg p.field with
      | none => .error ("error getting " ++ p.field ++ " from config")
      | some v => .ok (.fieldValue v)
  match encodee with
  | .error e => .error e
  | .ok enc =>
      if p.format = "json" then
        .ok (if p.concise then marshalJSON enc else marshalJSONIndent enc)
      else if p.format = "yaml" then .ok (marshalYAML enc)
      else .ok data

/-! ## Substring containment (for error-surfacing statements) -/

/-- Boolean infix (substring) test on character lists. -/
def listIsInfix (needle : List Char) : List Char → Bool
  | [] => listIsPref needle []
  | a :: as => listIsPref needle (a :: as) || listIsInfix needle as

/-- `containsSubstr s sub` holds when `sub` occurs contiguously in `s`. -/
def containsSubstr (s sub : String) : Bool :=
  listIsInfix sub.toList s.toList

/-! ## Helper lemmas -/

/-- A prefix of a list remains a prefix after appending on the right. -/
theorem listIsPref_append (p l₁ l₂ : List Char)
    (h : listIsPref p l₁ = true) : listIsPref p (l₁ ++ l₂) = true := by
  induction p generalizing l₁ with
  | nil => rfl
  | cons a as ih =>
    cases l₁ with
    | nil => exact absurd h (by simp [listIsPref])
    | cons b bs =>
      simp only [listIsPref, Bool.and_eq_true] at h
      simp only [List.cons_append, listIsPref, Bool.and_eq_true]
      exact ⟨h.1, ih bs h.2⟩

/-- Character-level view of string append. -/
theorem strToList_append (a b : String) :
    (a ++ b).toList = a.toList ++ b.toList := by
  simp [String.toList]

/-- `hasPref` survives appending a suffix to the subject string. -/
theorem hasPref_append (a b p : String) (h : hasPref a p = true) :
    hasPref (a ++ b) p = true := by
  unfold hasPref at *
  rw [strToList_append]
  exact listIsPref_append _ _ _ h

/-- The logsync URL suffix contains a slash once appended. -/
theorem slash_mem_logsync_suffix (a : String) :
    ('/' : Char) ∈ (a ++ "/remote/logsync").toList := by
  rw [strToList_append]
  simp

/-- A sound peer predicate rejects any address carrying the logsync
suffix. -/
theorem isPeer_logsync_suffix_false (isPeer : String → Bool)
    (hp : PeerAddrPred isPeer) (a : String) :
    isPeer (a ++ "/remote/logsync") = false := by
  by_contra h
  exact hp _ (by simpa using h) (slash_mem_logsync_suffix a)

/-! ## Claim C2 -/

/-- Claim C2: for every call to `PullLogs`, `PushLogs` or `RemoveLogs` (with
a configured client), the transport is chosen by parsing `remoteAddress`: a
valid base58 peer identifier selects the peer-network transport; an address
with an HTTP-style prefix selects HTTP, with the fixed suffix
`/remote/logsync` appended before dispatch; any other address yields an
unrecognized-address error. -/
theorem c2_logsync_transport_selection (isPeer : String → Bool)
    (hp : PeerAddrPred isPeer) (addr : String) :
    (isPeer addr = true →
      pullLogs isPeer true addr = .ok (.p2p, addr) ∧
      pushLogs isPeer true addr = .ok (.p2p, addr) ∧
      removeLogs isPeer true addr = .ok (.p2p, addr)) ∧
    (isPeer addr = false → hasPref addr "http" = true →
      pullLogs isPeer true addr = .ok (.http, addr ++ "/remote/logsync") ∧
      pushLogs isPeer true addr = .ok (.http, addr ++ "/remote/logsync") ∧
      removeLogs isPeer true addr = .ok (.http, addr ++ "/remote/logsync")) ∧
    (isPeer addr = false → hasPref addr "http" = false →
      pullLogs isPeer true addr = .error "unrecognized address string" ∧
      pushLogs isPeer true addr = .error "unrecognized address string" ∧
      removeLogs isPeer true addr = .error "unrecognized address string") := by
  refine ⟨fun hpeer => ?_, fun hnp hhttp => ?_, fun hnp hhttp => ?_⟩
  · have : addressType isPeer addr = "p2p" := by simp [addressType, hpeer]
    refine ⟨?_, ?_, ?_⟩ <;>
      simp [pullLogs, pushLogs, removeLogs, this, logsyncDispatch, hpeer]
  · have ht : addressType isPeer addr = "http" := by
      simp [addressType, hnp, hhttp]
    have hnp' := isPeer_logsync_suffix_false isPeer hp addr
    have hh' := hasPref_append addr "/remote/logsync" "http" hhttp
    refine ⟨?_, ?_, ?_⟩ <;>
      simp [pullLogs, pushLogs, removeLogs, ht, logsyncDispatch, hnp', hh']
  · have ht : addressType isPeer addr = "" := by
      simp [addressType, hnp, hhttp]
    refine ⟨?_, ?_, ?_⟩ <;>
      simp [pullLogs, pushLogs, removeLogs, ht, logsyncDispatch, hnp, hhttp]

/-- Concrete peer predicate for witnesses: accepts exactly one base58-ish
identifier. -/
def isPeerEx : String → Bool := fun s => decide (s = "QmWitnessPeerID")

/-- Witness for C2: a concrete http address is dispatched with the logsync
suffix appended, under the concrete peer predicate `isPeerEx`. -/
theorem c2_logsync_transport_selection_witness :
    pullLogs isPeerEx true "http://example.com" =
      .ok (.http, "http://example.com/remote/logsync") := by
  have hp : PeerAddrPred isPeerEx := by
    intro s h
    have hs : s = "QmWitnessPeerID" := of_decide_eq_true h
    subst hs
    decide
  have h :=
    (c2_logsync_transport_selection isPeerEx hp "http://example.com").2.1
      (by decide) (by decide)
  exact h.1

/-! ## Claim C1 -/

/-- Stated from the claim's words: the author profile ID is the
base58-encoded SHA2-256 multihash digest of the author's public key
bytes. -/
def specProfileID (c : CryptoPrims) (pubBytes : List Nat) : String :=
  c.b58 (18 :: 32 :: (c.sha256digest pubBytes).take 32)

/-- Stated from the claim's words: the signing string
`<unixTimestamp>.<authorProfileID>.<contentPath>`. -/
def specSigningString (now : Int) (authorProfileID contentPath : String) :
    String :=
  toString now ++ "." ++ authorProfileID ++ "." ++ contentPath

/-- Stated from the claim's words: exactly the seven request parameters
`{peername, name, profileID, path, pid, timestamp, signature}`, with the
signature the base64 encoding of the private-key signature `sigBytes` over
the signing string. -/
def specSigParams (c : CryptoPrims) (pubBytes sigBytes : List Nat)
    (ref : DatasetRef) (now : Int) : List (String × String) :=
  [("peername", ref.peername), ("name", ref.name),
   ("profileID", ref.profileID), ("path", ref.path),
   ("pid", specProfileID c pubBytes),
   ("timestamp", toString now), ("signature", c.b64 sigBytes)]

/-- Claim C1: every privileged dataset request (push, pull, remove) carries
exactly the parameters `{peername, name, profileID, path, pid, timestamp,
signature}` where `pid` is the base58 SHA2-256 multihash of the public key
bytes and `signature` base64-signs `<timestamp>.<pid>.<path>`.  Hypotheses:
the external key-byte extraction and signing succeed, the pull ref already
has a path, and the address is http-classified (so remove is served). -/
theorem c1_privileged_requests_signed (c : CryptoPrims)
    (isPeer : String → Bool) (pk pub sg : List Nat) (ref : DatasetRef)
    (now : Int) (addr : String)
    (resolveRef : DatasetRef → Except String DatasetRef)
    (hpub : c.pubKeyBytes pk = some pub)
    (hsig : c.sign pk (specSigningString now (specProfileID c pub) ref.path)
      = some sg)
    (hpath : ref.path ≠ "")
    (hhttp : addressType isPeer addr = "http") :
    sigParams c pk ref now = some (specSigParams c pub sg ref now) ∧
    pushDataset c isPeer true pk ref now addr =
      .ok { method := "push", addr := addr ++ "/remote/dsync",
            path := ref.path, params := specSigParams c pub sg ref now } ∧
    pullDataset c true pk ref now addr resolveRef =
      .ok { method := "pull", addr := addr ++ "/remote/dsync",
            path := ref.path, params := specSigParams c pub sg ref now } ∧
    removeDataset c isPeer true pk ref now addr =
      .ok { method := "DELETE", addr := addr, path := "/remote/refs",
            params := specSigParams c pub sg ref now } := by
  have hsig' : c.sign pk (toString now ++ "." ++
      c.b58 (18 :: 32 :: (c.sha256digest pub).take 32) ++ "." ++ ref.path)
      = some sg := hsig
  have hsp : sigParams c pk ref now = some (specSigParams c pub sg ref now) := by
    simp [sigParams, calcProfileID, hpub, signString, requestSigningString,
      hsig', specSigParams, specProfileID]
  refine ⟨hsp, ?_, ?_, ?_⟩
  · simp [pushDataset, hhttp, hsp]
  · simp [pullDataset, hpath, hsp]
  · simp [removeDataset, hhttp, hsp]

/-- Concrete crypto primitives for witnesses: structurally faithful
stand-ins for the external hash, encodings and signature. -/
def cryptoEx : CryptoPrims where
  sha256digest := fun bs => bs
  b58 := fun bs => "B58-" ++ toString bs.length
  b64 := fun bs => "B64-" ++ toString bs.length
  pubKeyBytes := fun bs => some (0 :: bs)
  sign := fun _ s => some [s.length]

/-- Witness for C1 at a concrete key, ref, time and http address. -/
theorem c1_privileged_requests_signed_witness :
    sigParams cryptoEx [7] ⟨"b5", "world-pop", "QmProfile", "/ipfs/QmFoo"⟩ 1500000000
      = some (specSigParams cryptoEx [0, 7]
          [(specSigningString 1500000000 (specProfileID cryptoEx [0, 7]) "/ipfs/QmFoo").length]
          ⟨"b5", "world-pop", "QmProfile", "/ipfs/QmFoo"⟩ 1500000000) := by
  have h := c1_privileged_requests_signed cryptoEx isPeerEx [7] [0, 7]
    [(specSigningString 1500000000 (specProfileID cryptoEx [0, 7]) "/ipfs/QmFoo").length]
    ⟨"b5", "world-pop", "QmProfile", "/ipfs/QmFoo"⟩ 1500000000 "http://example.com"
    (fun r => .ok r) rfl rfl (by decide) (by decide)
  exact h.1

/-! ## Claim C7 -/

/-- Claim C7: `RemoveDataset` and `ResolveHeadRef` work only over HTTP — for
every remote address the parser does not classify as http, they fail with
the transport-unsupported errors; over an http-classified address they
issue a DELETE (with the signed params) resp. GET (with peername and name)
against the remote's `/remote/refs` endpoint. -/
theorem c7_refs_endpoint_http_only (c : CryptoPrims)
    (isPeer : String → Bool) (pk : List Nat) (ref : DatasetRef) (now : Int)
    (addr : String) (ps : List (String × String))
    (hsp : sigParams c pk ref now = some ps) :
    (addressType isPeer addr ≠ "http" →
      removeDataset c isPeer true pk ref now addr =
        .error "dataset remove requests currently only work over HTTP" ∧
      resolveHeadRef isPeer true ref addr =
        .error "dataset name resolution currently only works over HTTP") ∧
    (addressType isPeer addr = "http" →
      removeDataset c isPeer true pk ref now addr =
        .ok { method := "DELETE", addr := addr, path := "/remote/refs",
              params := ps } ∧
      resolveHeadRef isPeer true ref addr =
        .ok { method := "GET", addr := addr, path := "/remote/refs",
              params := [("peername", ref.peername), ("name", ref.name)] }) := by
  constructor
  · intro h
    constructor
    · simp [removeDataset, hsp, h]
    · simp [resolveHeadRef, h]
  · intro h
    constructor
    · simp [removeDataset, hsp, h]
    · simp [resolveHeadRef, h]

/-- Witness for C7: under the concrete peer predicate, a peer-style address
is refused by `RemoveDataset`, and an http address produces the DELETE
request on `/remote/refs`. -/
theorem c7_refs_endpoint_http_only_witness :
    removeDataset cryptoEx isPeerEx true [7]
        ⟨"b5", "world-pop", "QmProfile", "/ipfs/QmFoo"⟩ 1500000000
        "QmWitnessPeerID" =
      .error "dataset remove requests currently only work over HTTP" ∧
    resolveHeadRef isPeerEx true
        ⟨"b5", "world-pop", "QmProfile", "/ipfs/QmFoo"⟩ "http://example.com" =
      .ok { method := "GET", addr := "http://example.com",
            path := "/remote/refs",
            params := [("peername", "b5"), ("name", "world-pop")] } := by
  constructor
  · exact ((c7_refs_endpoint_http_only cryptoEx isPeerEx [7]
      ⟨"b5", "world-pop", "QmProfile", "/ipfs/QmFoo"⟩ 1500000000
      "QmWitnessPeerID" _ rfl).1 (by decide)).1
  · exact ((c7_refs_endpoint_http_only cryptoEx isPeerEx [7]
      ⟨"b5", "world-pop", "QmProfile", "/ipfs/QmFoo"⟩ 1500000000
      "http://example.com" _ rfl).2 (by decide)).2

/-! ## Claim C8 -/

/-- Claim C8: every sync-client operation invoked on an unconfigured (nil)
client returns the no-client error (and, being a plain early return,
performs nothing else); and the tail of `DatasetRequests.Remove` tolerates
`logbook.ErrNoLogbook` from `WriteVersionDelete` as success while passing
every other outcome through. -/
theorem c8_nil_client_and_no_logbook_tolerated :
    (∀ (isPeer : String → Bool) (addr : String),
      pullLogs isPeer false addr = .error errNoRemoteClient ∧
      pushLogs isPeer false addr = .error errNoRemoteClient ∧
      removeLogs isPeer false addr = .error errNoRemoteClient) ∧
    (∀ (c : CryptoPrims) (isPeer : String → Bool) (pk : List Nat)
        (ref : DatasetRef) (now : Int) (addr : String)
        (resolveRef : DatasetRef → Except String DatasetRef),
      pushDataset c isPeer false pk ref now addr = .error errNoRemoteClient ∧
      pullDataset c false pk ref now addr resolveRef =
        .error errNoRemoteClient ∧
      removeDataset c isPeer false pk ref now addr =
        .error errNoRemoteClient ∧
      resolveHeadRef isPeer false ref addr = .error errNoRemoteClient) ∧
    removeVersionDeleteResult (some .noLogbook) = none ∧
    removeVersionDeleteResult none = none ∧
    (∀ msg, removeVersionDeleteResult (some (.other msg)) =
      some (.other msg)) := by
  refine ⟨fun isPeer addr => ⟨rfl, rfl, rfl⟩,
    fun c isPeer pk ref now addr resolveRef => ⟨rfl, rfl, rfl, rfl⟩,
    rfl, rfl, fun msg => rfl⟩

/-! ## Receive-loop lemmas -/

/-- When the first success sits after `failed` (all failing) and within the
fuel budget, the loop adopts it, drops the accumulated error, and cancels. -/
theorem recvLoop_first_success (failed : List AddTaskResponse)
    (succ : AddTaskResponse) (rest : List AddTaskResponse) :
    ∀ (fuel : Nat) (acc : Option String),
      (∀ r ∈ failed, r.error ≠ none) → succ.error = none →
      failed.length < fuel →
      recvLoop fuel (failed ++ succ :: rest) acc =
        some (some succ.ref, none, true) := by
  induction failed with
  | nil =>
    intro fuel acc _ hsucc hlen
    match fuel, hlen with
    | n + 1, _ => simp [recvLoop, hsucc]
  | cons r failed ih =>
    intro fuel acc hfail hsucc hlen
    match fuel, hlen with
    | n + 1, hlen =>
      have hr : r.error ≠ none := hfail r (by simp)
      match hre : r.error with
      | none => exact absurd hre hr
      | some e =>
        simp only [List.cons_append, recvLoop, hre]
        exact ih n (some e) (fun x hx => hfail x (by simp [hx]))
          hsucc (by simpa using Nat.lt_of_succ_lt_succ hlen)

/-- When every received response fails and the fuel equals the number of
responses, the loop ends carrying only the last error, with no in-loop
cancellation. -/
theorem recvLoop_all_fail (rs : List AddTaskResponse) :
    ∀ (acc : Option String) (hne : rs ≠ []) (e : String),
      (∀ r ∈ rs, r.error ≠ none) → (rs.getLast hne).error = some e →
      recvLoop rs.length rs acc = some (none, some e, false) := by
  induction rs with
  | nil => intro _ hne; exact absurd rfl hne
  | cons r rs ih =>
    intro acc _ e hfail hlast
    match hre : r.error with
    | none => exact absurd hre (hfail r (by simp))
    | some e' =>
      cases rs with
      | nil =>
        simp only [List.getLast_singleton] at hlast
        rw [hre] at hlast
        cases hlast
        simp [recvLoop, hre]
      | cons r' rs' =>
        simp only [List.length_cons, recvLoop, hre]
        have hg : (r :: r' :: rs').getLast (by simp) =
            (r' :: rs').getLast (by simp) := List.getLast_cons (by simp)
        refine ih (some e') (by simp) e
          (fun x hx => hfail x (by simp [hx])) ?_
        rw [← hg]
        exact hlast

/-! ## Claims C3, C4, C5 -/

/-- Claim C3: with more than one launched source task, the coordinator
adopts the result of the first task to report success in arrival order
(any earlier arrivals having failed) and signals cancellation via the
shared context before returning, with the remaining in-flight tasks
(`rest`) unconsumed. -/
theorem c3_first_success_wins (rcPresent online : Bool) (remoteAddr : String)
    (failed : List AddTaskResponse) (succ : AddTaskResponse)
    (rest : List AddTaskResponse)
    (htasks : 2 ≤ numTasks rcPresent remoteAddr online)
    (hfail : ∀ r ∈ failed, r.error ≠ none)
    (hsucc : succ.error = none)
    (hlen : failed.length < numTasks rcPresent remoteAddr online) :
    addDatasetRace rcPresent remoteAddr online (failed ++ succ :: rest) =
      some (.ok succ.ref, true, numTasks rcPresent remoteAddr online) := by
  have hnz : ¬ numTasks rcPresent remoteAddr online = 0 := by omega
  have hloop := recvLoop_first_success failed succ rest
    (numTasks rcPresent remoteAddr online) none hfail hsucc hlen
  simp [addDatasetRace, hnz, hloop]

/-- Witness for C3: two tasks, first arrival fails, second succeeds — its
ref is adopted and cancellation fires. -/
theorem c3_first_success_wins_witness :
    addDatasetRace true "http://registry.example" true
        [⟨⟨"a", "x", "", "/ipfs/Qm1"⟩, some "connection refused"⟩,
         ⟨⟨"b", "y", "", "/ipfs/Qm2"⟩, none⟩] =
      some (.ok ⟨"b", "y", "", "/ipfs/Qm2"⟩, true, 2) := by
  have h := c3_first_success_wins true true "http://registry.example"
    [⟨⟨"a", "x", "", "/ipfs/Qm1"⟩, some "connection refused"⟩]
    ⟨⟨"b", "y", "", "/ipfs/Qm2"⟩, none⟩ []
    (by decide) (by decide) rfl (by decide)
  simpa using h

/-- Claim C4 as stated is false: the coordinator does not surface all
collected per-task errors.  Concretely, with two launched tasks failing
with `ERRONE` and `ERRTWO`, the operation fails with
`add failed: ERRTWO`, in which the first task's error `ERRONE` does not
occur. -/
theorem c4_all_errors_surfaced_counterexample :
    addDatasetRace true "http://registry.example" true
        [⟨⟨"a", "x", "", "/ipfs/Qm1"⟩, some "ERRONE"⟩,
         ⟨⟨"a", "x", "", "/ipfs/Qm1"⟩, some "ERRTWO"⟩] =
      some (.error "add failed: ERRTWO", false, 2) ∧
    containsSubstr "add failed: ERRTWO" "ERRONE" = false := by
  constructor
  · rfl
  · decide

/-- Claim C4, amended: if every launched source task fails, the operation
fails with an error wrapping only the most recently received task error
(earlier task errors are overwritten, not combined); if at least one task
succeeds, no individual task error is surfaced — the coordinator returns
the adopted ref. -/
theorem c4_amended_last_error_surfaced (rcPresent online : Bool)
    (remoteAddr : String) :
    (∀ (rs : List AddTaskResponse) (hne : rs ≠ []) (e : String),
      (∀ r ∈ rs, r.error ≠ none) →
      rs.length = numTasks rcPresent remoteAddr online →
      (rs.getLast hne).error = some e →
      addDatasetRace rcPresent remoteAddr online rs =
        some (.error ("add failed: " ++ e), false,
          numTasks rcPresent remoteAddr online)) ∧
    (∀ (failed : List AddTaskResponse) (succ : AddTaskResponse)
        (rest : List AddTaskResponse),
      (∀ r ∈ failed, r.error ≠ none) → succ.error = none →
      failed.length < numTasks rcPresent remoteAddr online →
      addDatasetRace rcPresent remoteAddr online (failed ++ succ :: rest) =
        some (.ok succ.ref, true, numTasks rcPresent remoteAddr online)) := by
  constructor
  · intro rs hne e hfail hlen hlast
    have hnz : ¬ numTasks rcPresent remoteAddr online = 0 := by
      rw [← hlen]
      simpa using hne
    have hloop := recvLoop_all_fail rs none hne e hfail hlast
    rw [hlen] at hloop
    simp [addDatasetRace, hnz, hloop]
  · intro failed succ rest hfail hsucc hlen
    have hnz : ¬ numTasks rcPresent remoteAddr online = 0 := by omega
    have hloop := recvLoop_first_success failed succ rest
      (numTasks rcPresent remoteAddr online) none hfail hsucc hlen
    simp [addDatasetRace, hnz, hloop]

/-- Witness for the amended C4: both tasks fail — only the second error is
wrapped; and a one-failure-one-success run surfaces no error. -/
theorem c4_amended_last_error_surfaced_witness :
    addDatasetRace true "http://registry.example" true
        [⟨⟨"a", "x", "", "/ipfs/Qm1"⟩, some "ERRONE"⟩,
         ⟨⟨"a", "x", "", "/ipfs/Qm1"⟩, some "ERRTWO"⟩] =
      some (.error "add failed: ERRTWO", false, 2) ∧
    addDatasetRace true "http://registry.example" true
        [⟨⟨"a", "x", "", "/ipfs/Qm1"⟩, some "ERRONE"⟩,
         ⟨⟨"b", "y", "", "/ipfs/Qm2"⟩, none⟩] =
      some (.ok ⟨"b", "y", "", "/ipfs/Qm2"⟩, true, 2) := by
  constructor
  · have h := (c4_amended_last_error_surfaced true true
      "http://registry.example").1
      [⟨⟨"a", "x", "", "/ipfs/Qm1"⟩, some "ERRONE"⟩,
       ⟨⟨"a", "x", "", "/ipfs/Qm1"⟩, some "ERRTWO"⟩]
      (by decide) "ERRTWO" (by decide) (by decide) (by decide)
    simpa using h
  · have h := (c4_amended_last_error_surfaced true true
      "http://registry.example").2
      [⟨⟨"a", "x", "", "/ipfs/Qm1"⟩, some "ERRONE"⟩]
      ⟨⟨"b", "y", "", "/ipfs/Qm2"⟩, none⟩ []
      (by decide) rfl (by decide)
    simpa using h

/-- Claim C5: with no remote client / registry address configured and the
node offline, zero tasks are launched and `AddDataset` fails immediately
with the configuration error — independent of anything on the response
channel, with no cancellation and no task activity. -/
theorem c5_zero_sources_immediate_config_error (rcPresent online : Bool)
    (remoteAddr : String) (responses : List AddTaskResponse)
    (hrc : rcPresent = false ∨ remoteAddr = "") (honline : online = false) :
    numTasks rcPresent remoteAddr online = 0 ∧
    addDatasetRace rcPresent remoteAddr online responses =
      some (.error "no registry configured and node is not online",
        false, 0) := by
  have h0 : numTasks rcPresent remoteAddr online = 0 := by
    rcases hrc with h | h <;> simp [numTasks, h, honline]
  exact ⟨h0, by simp [addDatasetRace, h0]⟩

/-- Witness for C5: nil client, offline node. -/
theorem c5_zero_sources_immediate_config_error_witness :
    addDatasetRace false "http://registry.example" false
        [⟨⟨"a", "x", "", "/ipfs/Qm1"⟩, none⟩] =
      some (.error "no registry configured and node is not online",
        false, 0) := by
  exact (c5_zero_sources_immediate_config_error false false
    "http://registry.example"
    [⟨⟨"a", "x", "", "/ipfs/Qm1"⟩, none⟩] (Or.inl rfl) rfl).2

/-! ## Claim C6 -/

/-- `find?` lands on the appended element when nothing before it
matches. -/
theorem find?_self_append (l : List DatasetRef) (r : DatasetRef)
    (pred : DatasetRef → Bool) (hr : pred r = true)
    (hl : ∀ x ∈ l, pred x = false) :
    List.find? pred (l ++ [r]) = some r := by
  induction l with
  | nil => simp [List.find?, hr]
  | cons a as ih =>
    rw [List.cons_append, List.find?_cons_of_neg _ (by simp [hl a (by simp)])]
    exact ih fun x hx => hl x (by simp [hx])

/-- Looking up the key just written returns the written reference. -/
theorem getRef_putRef (refs : List DatasetRef) (r : DatasetRef) :
    getRef (putRef refs r) r.peername r.name = some r := by
  unfold getRef putRef
  apply find?_self_append
  · simp
  · intro x hx
    have h2 := (List.mem_filter.mp hx).2
    simp at h2 ⊢
    tauto

/-- Claim C6: after a successful fetch, when no reference with the same
peername and name exists locally, the fetched reference is stored as-is;
when one exists, both versions are loaded and the more recent one (per the
spec's recency rule, abstracted as `moreRecent`) is the one the refstore
afterwards reports for that key. -/
theorem c6_more_recent_ref_wins {D : Type} (moreRecent : D → D → Bool)
    (store : String → Option D) (repoRefs : List DatasetRef)
    (fetched prevRef : DatasetRef) (prevDs fetchedDs : D) :
    (getRef repoRefs fetched.peername fetched.name = none →
      addFinalize moreRecent store repoRefs fetched =
        .ok (putRef repoRefs fetched) ∧
      getRef (putRef repoRefs fetched) fetched.peername fetched.name =
        some fetched) ∧
    (getRef repoRefs fetched.peername fetched.name = some prevRef →
      store prevRef.path = some prevDs →
      store fetched.path = some fetchedDs →
      addFinalize moreRecent store repoRefs fetched =
        .ok (if moreRecent fetchedDs prevDs then putRef repoRefs fetched
             else repoRefs) ∧
      getRef (if moreRecent fetchedDs prevDs then putRef repoRefs fetched
              else repoRefs) fetched.peername fetched.name =
        some (if moreRecent fetchedDs prevDs then fetched else prevRef)) := by
  constructor
  · intro hnone
    exact ⟨by simp [addFinalize, hnone], getRef_putRef repoRefs fetched⟩
  · intro hsome hprev hnew
    refine ⟨by simp [addFinalize, hsome, hprev, hnew], ?_⟩
    by_cases hmr : moreRecent fetchedDs prevDs = true
    · simpa [hmr] using getRef_putRef repoRefs fetched
    · simp only [Bool.not_eq_true] at hmr
      simp [hmr, hsome]

/-- Witness for C6: an empty refstore stores the fetched ref as-is; a store
holding an older version is replaced when the recency rule prefers the
fetched dataset. -/
theorem c6_more_recent_ref_wins_witness :
    addFinalize (fun a b => decide (b < a))
        (fun p => if p = "/ipfs/Qm1" then some 1 else
          if p = "/ipfs/Qm2" then some 2 else none)
        [⟨"b5", "pop", "", "/ipfs/Qm1"⟩] ⟨"b5", "pop", "", "/ipfs/Qm2"⟩ =
      .ok [⟨"b5", "pop", "", "/ipfs/Qm2"⟩] ∧
    getRef [⟨"b5", "pop", "", "/ipfs/Qm2"⟩] "b5" "pop" =
      some ⟨"b5", "pop", "", "/ipfs/Qm2"⟩ := by
  have h := (c6_more_recent_ref_wins (D := Nat) (fun a b => decide (b < a))
    (fun p => if p = "/ipfs/Qm1" then some 1 else
      if p = "/ipfs/Qm2" then some 2 else none)
    [⟨"b5", "pop", "", "/ipfs/Qm1"⟩] ⟨"b5", "pop", "", "/ipfs/Qm2"⟩
    ⟨"b5", "pop", "", "/ipfs/Qm1"⟩ 1 2).2 rfl rfl rfl
  constructor
  · simpa [putRef] using h.1
  · simpa [putRef] using h.2

/-! ## Claim C9 -/

/-- Claim C9: `DatasetRequests.Add` runs a best-effort `PullLogs` before
fetching content; for every ref and remote address, its outcome never
changes the result of the larger add operation (first conjunct, for any
two pull-logs behaviours), and on a pull failure the error is logged and
the content fetch still runs right after (second conjunct: the first three
recorded steps are pull, log, fetch). -/
theorem c9_pull_logs_best_effort (registryLoc : Option String)
    (refStr linkDir remoteAddr : String)
    (parseRef : String → Except String DatasetRef)
    (pullLogsF : DatasetRef → String → Except String Unit)
    (addDatasetF : DatasetRef → String → Except String DatasetRef)
    (checkoutF : DatasetRef → String → Except String Unit)
    (ref : DatasetRef) (e : String)
    (hparse : parseRef refStr = .ok ref)
    (hpull : pullLogsF ref
      (if remoteAddr = "" then registryLoc.getD remoteAddr else remoteAddr) =
      .error e) :
    (∀ pf1 pf2 : DatasetRef → String → Except String Unit,
      (libAdd registryLoc refStr linkDir remoteAddr parseRef pf1
        addDatasetF checkoutF).2 =
      (libAdd registryLoc refStr linkDir remoteAddr parseRef pf2
        addDatasetF checkoutF).2) ∧
    (libAdd registryLoc refStr linkDir remoteAddr parseRef pullLogsF
        addDatasetF checkoutF).1.take 3 =
      [AddStep.pullLogsStep, AddStep.logPullError, AddStep.addDatasetStep] := by
  constructor
  · intro pf1 pf2
    simp only [libAdd, hparse]
    cases pf1 ref
        (if remoteAddr = "" then registryLoc.getD remoteAddr else remoteAddr) <;>
    cases pf2 ref
        (if remoteAddr = "" then registryLoc.getD remoteAddr else remoteAddr) <;>
    cases addDatasetF ref
        (if remoteAddr = "" then registryLoc.getD remoteAddr else remoteAddr) with
    | _ =>
      first
      | rfl
      | (rename_i ref1
         by_cases hl : linkDir ≠ ""
         · cases h3 : checkoutF ref1 linkDir <;> simp [hl, h3]
         · simp [hl])
  · simp only [libAdd, hparse, hpull]
    cases addDatasetF ref
        (if remoteAddr = "" then registryLoc.getD remoteAddr else remoteAddr) with
    | error e1 => rfl
    | ok ref1 =>
      by_cases hl : linkDir ≠ ""
      · cases h3 : checkoutF ref1 linkDir <;> simp [hl, h3]
      · simp [hl]

/-- Witness for C9: a failing pull against a concrete registry address is
logged and the fetch still runs. -/
theorem c9_pull_logs_best_effort_witness :
    (libAdd (some "http://registry.example") "b5/pop" "" ""
        (fun _ => .ok ⟨"b5", "pop", "", ""⟩)
        (fun _ _ => .error "logsync unreachable")
        (fun r _ => .ok r) (fun _ _ => .ok ())).1.take 3 =
      [AddStep.pullLogsStep, AddStep.logPullError, AddStep.addDatasetStep] := by
  exact (c9_pull_logs_best_effort (some "http://registry.example") "b5/pop"
    "" "" (fun _ => .ok ⟨"b5", "pop", "", ""⟩)
    (fun _ _ => .error "logsync unreachable") (fun r _ => .ok r)
    (fun _ _ => .ok ()) ⟨"b5", "pop", "", ""⟩ "logsync unreachable"
    rfl rfl).2

/-! ## Claim C10 -/

/-- Scrubbing erases everything that distinguished two configurations that
differ only in their private-key values. -/
theorem scrubConfig_eq_of_rest_eq (c1 c2 : Config)
    (hpro : c1.profile.map CfgProfile.rest = c2.profile.map CfgProfile.rest)
    (hp2p : c1.p2p.map CfgP2P.rest = c2.p2p.map CfgP2P.rest)
    (hrest : c1.rest = c2.rest) :
    scrubConfig false c1 = scrubConfig false c2 := by
  have h1 : c1.profile.map (fun p => { p with privKey := "" }) =
      c2.profile.map fun p => { p with privKey := "" } := by
    cases hc1 : c1.profile <;> cases hc2 : c2.profile <;>
      rw [hc1, hc2] at hpro <;> simp_all
  have h2 : c1.p2p.map (fun p => { p with privKey := "" }) =
      c2.p2p.map fun p => { p with privKey := "" } := by
    cases hc1 : c1.p2p <;> cases hc2 : c2.p2p <;>
      rw [hc1, hc2] at hp2p <;> simp_all
  simp [scrubConfig, h1, h2, hrest]

/-- Scrubbing twice is the same as scrubbing once. -/
theorem scrubConfig_idem (c : Config) :
    scrubConfig false (scrubConfig false c) = scrubConfig false c := by
  cases c with
  | mk profile p2p rest =>
      cases profile <;> cases p2p <;> simp [scrubConfig]

/-- Claim C10: with `WithPrivateKey = false`, `GetConfig` serializes a
configuration whose profile and P2P private-key fields are blank (the
output is exactly the output on the scrubbed configuration, whose key
fields are provably empty), and any two configurations that differ only in
their private-key values produce identical output. -/
theorem c10_private_keys_scrubbed {F B : Type}
    (get : Config → String → Option F)
    (marshalJSON marshalJSONIndent marshalYAML : Encodee F → B)
    (p : GetConfigParams) (d : B) (hwp : p.withPrivateKey = false) :
    (∀ (cfg : Config) (pr : CfgProfile),
      (scrubConfig false cfg).profile = some pr → pr.privKey = "") ∧
    (∀ (cfg : Config) (pp : CfgP2P),
      (scrubConfig false cfg).p2p = some pp → pp.privKey = "") ∧
    (∀ cfg : Config,
      getConfig get marshalJSON marshalJSONIndent marshalYAML p cfg d =
      getConfig get marshalJSON marshalJSONIndent marshalYAML p
        (scrubConfig false cfg) d) ∧
    (∀ c1 c2 : Config,
      c1.profile.map CfgProfile.rest = c2.profile.map CfgProfile.rest →
      c1.p2p.map CfgP2P.rest = c2.p2p.map CfgP2P.rest →
      c1.rest = c2.rest →
      getConfig get marshalJSON marshalJSONIndent marshalYAML p c1 d =
      getConfig get marshalJSON marshalJSONIndent marshalYAML p c2 d) := by
  refine ⟨?_, ?_, ?_, ?_⟩
  · intro cfg pr h
    cases hc : cfg.profile with
    | none => rw [scrubConfig, if_neg (by simp), hc] at h; simp at h
    | some q =>
        rw [scrubConfig, if_neg (by simp), hc] at h
        simp at h
        rw [← h]
  · intro cfg pp h
    cases hc : cfg.p2p with
    | none => rw [scrubConfig, if_neg (by simp), hc] at h; simp at h
    | some q =>
        rw [scrubConfig, if_neg (by simp), hc] at h
        simp at h
        rw [← h]
  · intro cfg
    simp only [getConfig, hwp, scrubConfig_idem]
  · intro c1 c2 hpro hp2p hrest
    simp only [getConfig, hwp,
      scrubConfig_eq_of_rest_eq c1 c2 hpro hp2p hrest]

/-- Witness for C10: two concrete configurations differing only in the two
private keys marshal identically with `WithPrivateKey = false`. -/
theorem c10_private_keys_scrubbed_witness :
    getConfig (F := Unit) (fun _ _ => none) id id id
        ⟨false, "json", true, ""⟩
        ⟨some ⟨"SECRET-A", "profile-rest"⟩, some ⟨"SECRET-B", "p2p-rest"⟩,
          "other"⟩
        (Encodee.whole ⟨none, none, ""⟩) =
      getConfig (F := Unit) (fun _ _ => none) id id id
        ⟨false, "json", true, ""⟩
        ⟨some ⟨"DIFFERENT-A", "profile-rest"⟩,
          some ⟨"DIFFERENT-B", "p2p-rest"⟩, "other"⟩
        (Encodee.whole ⟨none, none, ""⟩) := by
  exact (c10_private_keys_scrubbed (F := Unit) (fun _ _ => none) id id id
    ⟨false, "json", true, ""⟩ (Encodee.whole ⟨none, none, ""⟩) rfl).2.2.2
    ⟨some ⟨"SECRET-A", "profile-rest"⟩, some ⟨"SECRET-B", "p2p-rest"⟩, "other"⟩
    ⟨some ⟨"DIFFERENT-A", "profile-rest"⟩,
      some ⟨"DIFFERENT-B", "p2p-rest"⟩, "other"⟩
    rfl rfl rfl
